import Mathlib

/-!
Verification of the `processtransformer` model-construction module
(`processtransformer/models/transformer.py`).

The repository wires third-party framework layers (MultiHeadAttention, DenseLayer,
LayerNormalization, Dropout, Embedding, GlobalAveragePooling1D) into two custom
layer classes and three model builders.  We shallowly embed the module over ℚ:

* a sequence of feature vectors is a `Tensor2 = List (List ℚ)`;
* learned parameters (kernels, biases, embedding tables, normalization
  scale/shift) are explicit function-valued arguments, since the framework
  initializes them at construction and they are opaque to this module;
* the two irrational numeric kernels the framework supplies (the reciprocal
  square root used by layer normalization and scaled attention, and the
  exponential used by softmax) are abstracted into a `NumKernels` record, so
  every theorem below holds for the framework's actual kernels;
* the stochastic dropout masks drawn by the framework during training are
  explicit function-valued arguments (`DropMasks`), and dropout at inference
  time returns its input unchanged, the framework's documented convention;
* fallible embedding-table lookups return an `Option`, `none` being the
  framework's out-of-range lookup error.
-/

/-- A feature vector. -/
abbrev Vec := List ℚ

/-- A sequence of feature vectors (one row per sequence position). -/
abbrev Tensor2 := List Vec

/-- `hasShape t L d` : `t` is a sequence of `L` vectors, each of size `d`. -/
def hasShape (t : Tensor2) (L d : ℕ) : Prop :=
  t.length = L ∧ ∀ r ∈ t, r.length = d

instance (t : Tensor2) (L d : ℕ) : Decidable (hasShape t L d) := by
  unfold hasShape; infer_instance

/-- Elementwise sum of two vectors (broadcast-free case used by the module). -/
def addVec (u v : Vec) : Vec := List.zipWith (· + ·) u v

/-- Row-wise sum of two tensors, the framework's `+` on equal-shape tensors. -/
def addT : Tensor2 → Tensor2 → Tensor2
  | a :: as, b :: bs => addVec a b :: addT as bs
  | _, _ => []

/-- Dot product of two vectors. -/
def dot (u v : Vec) : ℚ := (List.zipWith (· * ·) u v).sum

/-- Dot product of a vector against a function-valued weight row. -/
def dotW (x : Vec) (w : ℕ → ℚ) : ℚ :=
  ((List.range x.length).map (fun i => x.getD i 0 * w i)).sum

/-- The irrational numeric kernels supplied by the framework: reciprocal
square root and exponential.  All theorems hold for every choice. -/
structure NumKernels where
  rsqrt : ℚ → ℚ
  qexp : ℚ → ℚ

/-- Softmax over a vector of scores, with the framework's exponential. -/
def softmax (f : ℚ → ℚ) (v : Vec) : Vec :=
  let e := v.map f
  e.map (fun x => x / e.sum)

/-- Activation functions used by the module. -/
inductive Activation where
  | relu : Activation
  | linear : Activation

/-- Semantics of the activations: rectified linear, and the identity. -/
def Activation.apply : Activation → ℚ → ℚ
  | .relu, x => max x 0
  | .linear, x => x

/-- A framework `DenseLayer(units, activation)` layer with its learned kernel and
bias; `kernel j i` is the weight from input `i` to output `j`. -/
structure DenseLayer where
  units : ℕ
  activation : Activation
  kernel : ℕ → ℕ → ℚ
  bias : ℕ → ℚ

/-- A dense layer applied to one vector: `units` outputs, each an activated
affine form of the input. -/
def DenseLayer.call (d : DenseLayer) (x : Vec) : Vec :=
  (List.range d.units).map (fun j => d.activation.apply (dotW x (d.kernel j) + d.bias j))

/-- A framework `Embedding(input_dim, output_dim)` layer with its learned
table, `table i j` being coordinate `j` of the vector for id `i`. -/
structure Embedding where
  input_dim : ℕ
  output_dim : ℕ
  table : ℕ → ℕ → ℚ

/-- The table row for id `i`: an `output_dim`-sized vector. -/
def Embedding.row (e : Embedding) (i : ℕ) : Vec :=
  (List.range e.output_dim).map (e.table i)

/-- Looking up id `i`: its table row when `i` is in range, the framework's
out-of-range error (`none`) otherwise. -/
def Embedding.lookup (e : Embedding) (i : ℕ) : Option Vec :=
  if i < e.input_dim then some (e.row i) else none

/-- Look up every id of a list, failing if any single lookup fails. -/
def mapLookup (f : ℕ → Option Vec) : List ℕ → Option Tensor2
  | [] => some []
  | a :: as =>
    match f a, mapLookup f as with
    | some b, some bs => some (b :: bs)
    | _, _ => none

/-- A framework `LayerNormalization(epsilon)` layer with learned scale
(`gamma`) and shift (`beta`). -/
structure LayerNormalization where
  epsilon : ℚ
  gamma : ℕ → ℚ
  beta : ℕ → ℚ

/-- Mean of a vector. -/
def mean (v : Vec) : ℚ := v.sum / (v.length : ℚ)

/-- Population variance of a vector. -/
def variance (v : Vec) : ℚ := mean (v.map (fun x => (x - mean v) ^ 2))

/-- Layer normalization of one position's feature vector: center, scale by
the reciprocal square root of variance plus epsilon, then apply the learned
scale and shift per coordinate. -/
def LayerNormalization.call (ln : LayerNormalization) (K : NumKernels) (x : Vec) : Vec :=
  let μ := mean x
  let s := K.rsqrt (variance x + ln.epsilon)
  (List.range x.length).map (fun i => ln.gamma i * ((x.getD i 0 - μ) * s) + ln.beta i)

/-- A framework `Dropout(rate)` layer. -/
structure Dropout where
  rate : ℚ

/-- One row of training-mode dropout: zero the masked coordinates and rescale
the kept ones by `1 / (1 - rate)`. -/
def dropRow (rate : ℚ) (mask : ℕ → Bool) (x : Vec) : Vec :=
  (List.range x.length).map (fun i => if mask i then 0 else x.getD i 0 / (1 - rate))

/-- Dropout on a vector: stochastic masking (made explicit by `mask`) during
training, and the input unchanged at inference, the framework's convention. -/
def Dropout.call1 (d : Dropout) (training : Bool) (mask : ℕ → Bool) (x : Vec) : Vec :=
  if training then dropRow d.rate mask x else x

/-- Dropout on a tensor, with a mask indexed by position and coordinate. -/
def Dropout.callT (d : Dropout) (training : Bool) (mask : ℕ → ℕ → Bool) (x : Tensor2) : Tensor2 :=
  if training then
    (List.range x.length).map (fun p => dropRow d.rate (mask p) (x.getD p []))
  else x

/-- A framework `MultiHeadAttention(num_heads, key_dim)` layer with its
learned per-head query/key/value projections and the output projection. -/
structure MultiHeadAttention where
  num_heads : ℕ
  key_dim : ℕ
  wq : ℕ → ℕ → ℕ → ℚ
  wk : ℕ → ℕ → ℕ → ℚ
  wv : ℕ → ℕ → ℕ → ℚ
  bq : ℕ → ℕ → ℚ
  bk : ℕ → ℕ → ℚ
  bv : ℕ → ℕ → ℚ
  wo : ℕ → ℕ → ℚ
  bo : ℕ → ℚ

/-- An affine projection of `x` to `dim` coordinates. -/
def linProj (w : ℕ → ℕ → ℚ) (b : ℕ → ℚ) (dim : ℕ) (x : Vec) : Vec :=
  (List.range dim).map (fun j => dotW x (w j) + b j)

/-- Attention-weighted sum of the value rows, starting from the
`dim`-sized zero vector. -/
def weightedSum (scores : List ℚ) (vs : Tensor2) (dim : ℕ) : Vec :=
  (List.zipWith (fun s v => v.map (fun q => s * q)) scores vs).foldl addVec
    (List.replicate dim 0)

/-- One query row of multi-head attention against `value`: per head, project
query, keys and values to `key_dim`, softmax the scaled pairwise scores,
weight the value rows; concatenate the heads and project back to the query
row's own width, the framework's output shape. -/
def MultiHeadAttention.attendRow (m : MultiHeadAttention) (K : NumKernels)
    (value : Tensor2) (qrow : Vec) : Vec :=
  linProj m.wo m.bo qrow.length
    ((List.range m.num_heads).map (fun h =>
      let qv := linProj (m.wq h) (m.bq h) m.key_dim qrow
      let ks := value.map (linProj (m.wk h) (m.bk h) m.key_dim)
      let vs := value.map (linProj (m.wv h) (m.bv h) m.key_dim)
      let scores := softmax K.qexp
        (ks.map (fun krow => dot qv krow * K.rsqrt (m.key_dim : ℚ)))
      weightedSum scores vs m.key_dim)).flatten

/-- Multi-head attention of `query` against `value` (key defaulting to value,
as in the module's self-attention call), row by row. -/
def MultiHeadAttention.call (m : MultiHeadAttention) (K : NumKernels)
    (query value : Tensor2) : Tensor2 :=
  query.map (m.attendRow K value)

/-- The learned parameters of one `TransformerBlock`, grouped as the
framework initializes them at construction. -/
structure TBWeights where
  wq : ℕ → ℕ → ℕ → ℚ
  wk : ℕ → ℕ → ℕ → ℚ
  wv : ℕ → ℕ → ℕ → ℚ
  bq : ℕ → ℕ → ℚ
  bk : ℕ → ℕ → ℚ
  bv : ℕ → ℕ → ℚ
  wo : ℕ → ℕ → ℚ
  bo : ℕ → ℚ
  w1 : ℕ → ℕ → ℚ
  b1 : ℕ → ℚ
  w2 : ℕ → ℕ → ℚ
  b2 : ℕ → ℚ
  ga : ℕ → ℚ
  ba : ℕ → ℚ
  gb : ℕ → ℚ
  bb : ℕ → ℚ

/-- The `TransformerBlock` layer class: its sublayers, as built by
`TransformerBlock.__init__`. -/
structure TransformerBlock where
  att : MultiHeadAttention
  ffn_a : DenseLayer
  ffn_b : DenseLayer
  layernorm_a : LayerNormalization
  layernorm_b : LayerNormalization
  dropout_a : Dropout
  dropout_b : Dropout

/-- `TransformerBlock.__init__(embed_dim, num_heads, ff_dim, rate)`:
multi-head attention with `num_heads` heads of key dimension `embed_dim`,
a feed-forward pipeline `DenseLayer(ff_dim, relu)` then `DenseLayer(embed_dim)`,
two layer normalizations with epsilon `1e-6`, two dropouts at `rate`. -/
def TransformerBlock.init (embed_dim num_heads ff_dim : ℕ) (rate : ℚ)
    (w : TBWeights) : TransformerBlock :=
  ⟨⟨num_heads, embed_dim, w.wq, w.wk, w.wv, w.bq, w.bk, w.bv, w.wo, w.bo⟩,
   ⟨ff_dim, Activation.relu, w.w1, w.b1⟩,
   ⟨embed_dim, Activation.linear, w.w2, w.b2⟩,
   ⟨1/1000000, w.ga, w.ba⟩,
   ⟨1/1000000, w.gb, w.bb⟩,
   ⟨rate⟩, ⟨rate⟩⟩

/-- `TransformerBlock.call(inputs, training)`, line for line from the
source: self-attention, dropout, residual add and first normalization,
feed-forward, dropout, residual add and second normalization. -/
def TransformerBlock.call (b : TransformerBlock) (K : NumKernels)
    (ma mb : ℕ → ℕ → Bool) (inputs : Tensor2) (training : Bool) : Tensor2 :=
  let attn_output := b.att.call K inputs inputs
  let attn_output := b.dropout_a.callT training ma attn_output
  let out_a := (addT inputs attn_output).map (b.layernorm_a.call K)
  let ffn_output := out_a.map (fun r => b.ffn_b.call (b.ffn_a.call r))
  let ffn_output := b.dropout_b.callT training mb ffn_output
  (addT out_a ffn_output).map (b.layernorm_b.call K)

/-- The `TokenAndPositionEmbedding` layer class: its two embedding
sublayers. -/
structure TokenAndPositionEmbedding where
  token_emb : Embedding
  pos_emb : Embedding

/-- `TokenAndPositionEmbedding.__init__(maxlen, vocab_size, embed_dim)`:
a token table of `vocab_size` rows and a position table of `maxlen` rows,
both of width `embed_dim`. -/
def TokenAndPositionEmbedding.init (maxlen vocab_size embed_dim : ℕ)
    (wt wp : ℕ → ℕ → ℚ) : TokenAndPositionEmbedding :=
  ⟨⟨vocab_size, embed_dim, wt⟩, ⟨maxlen, embed_dim, wp⟩⟩

/-- `TokenAndPositionEmbedding.call(x)`: take the runtime length of `x`,
embed the positions `0, …, length-1` through the position table, embed the
tokens through the token table, and return their sum. -/
def TokenAndPositionEmbedding.call (l : TokenAndPositionEmbedding)
    (x : List ℕ) : Option Tensor2 :=
  match mapLookup l.pos_emb.lookup (List.range x.length),
        mapLookup l.token_emb.lookup x with
  | some positions, some xe => some (addT xe positions)
  | _, _ => none

/-- `GlobalAveragePooling1D`: average the rows coordinate by coordinate. -/
def globalAveragePooling1D (t : Tensor2) : Vec :=
  (List.range (t.headD []).length).map
    (fun i => (t.map (fun r => r.getD i 0)).sum / (t.length : ℚ))

/-- The dropout masks the framework would draw for one forward pass: one per
dropout site (two inside the transformer block, two in the head). -/
structure DropMasks where
  tb_a : ℕ → ℕ → Bool
  tb_b : ℕ → ℕ → Bool
  head_a : ℕ → Bool
  head_b : ℕ → Bool

/-- The learned parameters of one built model. -/
structure ModelWeights where
  tok : ℕ → ℕ → ℚ
  pos : ℕ → ℕ → ℚ
  tb : TBWeights
  time_k : ℕ → ℕ → ℚ
  time_b : ℕ → ℚ
  hid_k : ℕ → ℕ → ℚ
  hid_b : ℕ → ℚ
  out_k : ℕ → ℕ → ℚ
  out_b : ℕ → ℚ

/-- A built model graph: its fixed name, its declared sequence-input length,
its auxiliary numeric input width when present, and its forward pass from a
token sequence and a time-feature vector to the final output vector. -/
structure Model where
  name : String
  seq_input_len : ℕ
  time_input_width : Option ℕ
  forward : NumKernels → DropMasks → Bool → List ℕ → Vec → Option Vec

/-- `get_next_activity_model`: embed, one transformer block, global average
pooling, dropout 0.1, `DenseLayer(64, relu)`, dropout 0.1, `DenseLayer(output_dim,
linear)`; single sequence input of length `max_case_length`, model name
`next_activity_transformer`. -/
def get_next_activity_model (max_case_length vocab_size output_dim
    embed_dim num_heads ff_dim : ℕ) (w : ModelWeights) : Model :=
  ⟨"next_activity_transformer", max_case_length, none,
   fun K masks training tokens _times =>
     match (TokenAndPositionEmbedding.init max_case_length vocab_size embed_dim
         w.tok w.pos).call tokens with
     | none => none
     | some x0 =>
       let x1 := (TransformerBlock.init embed_dim num_heads ff_dim (1/10)
         w.tb).call K masks.tb_a masks.tb_b x0 training
       let x2 := globalAveragePooling1D x1
       let x3 := Dropout.call1 ⟨1/10⟩ training masks.head_a x2
       let x4 := DenseLayer.call ⟨64, Activation.relu, w.hid_k, w.hid_b⟩ x3
       let x5 := Dropout.call1 ⟨1/10⟩ training masks.head_b x4
       some (DenseLayer.call ⟨output_dim, Activation.linear, w.out_k, w.out_b⟩ x5)⟩

/-- `get_next_time_model`: embed, one transformer block, global average
pooling; the 3-feature time input through `DenseLayer(32, relu)`, concatenated
after the pooled representation; dropout 0.1, `DenseLayer(128, relu)`, dropout
0.1, `DenseLayer(output_dim, linear)`; model name `next_time_transformer`. -/
def get_next_time_model (max_case_length vocab_size output_dim
    embed_dim num_heads ff_dim : ℕ) (w : ModelWeights) : Model :=
  ⟨"next_time_transformer", max_case_length, some 3,
   fun K masks training tokens times =>
     match (TokenAndPositionEmbedding.init max_case_length vocab_size embed_dim
         w.tok w.pos).call tokens with
     | none => none
     | some x0 =>
       let x1 := (TransformerBlock.init embed_dim num_heads ff_dim (1/10)
         w.tb).call K masks.tb_a masks.tb_b x0 training
       let x2 := globalAveragePooling1D x1
       let x_t := DenseLayer.call ⟨32, Activation.relu, w.time_k, w.time_b⟩ times
       let x3 := x2 ++ x_t
       let x4 := Dropout.call1 ⟨1/10⟩ training masks.head_a x3
       let x5 := DenseLayer.call ⟨128, Activation.relu, w.hid_k, w.hid_b⟩ x4
       let x6 := Dropout.call1 ⟨1/10⟩ training masks.head_b x5
       some (DenseLayer.call ⟨output_dim, Activation.linear, w.out_k, w.out_b⟩ x6)⟩

/-- `get_remaining_time_model`: identical wiring to `get_next_time_model`,
with model name `remaining_time_transformer`. -/
def get_remaining_time_model (max_case_length vocab_size output_dim
    embed_dim num_heads ff_dim : ℕ) (w : ModelWeights) : Model :=
  ⟨"remaining_time_transformer", max_case_length, some 3,
   fun K masks training tokens times =>
     match (TokenAndPositionEmbedding.init max_case_length vocab_size embed_dim
         w.tok w.pos).call tokens with
     | none => none
     | some x0 =>
       let x1 := (TransformerBlock.init embed_dim num_heads ff_dim (1/10)
         w.tb).call K masks.tb_a masks.tb_b x0 training
       let x2 := globalAveragePooling1D x1
       let x_t := DenseLayer.call ⟨32, Activation.relu, w.time_k, w.time_b⟩ times
       let x3 := x2 ++ x_t
       let x4 := Dropout.call1 ⟨1/10⟩ training masks.head_a x3
       let x5 := DenseLayer.call ⟨128, Activation.relu, w.hid_k, w.hid_b⟩ x4
       let x6 := Dropout.call1 ⟨1/10⟩ training masks.head_b x5
       some (DenseLayer.call ⟨output_dim, Activation.linear, w.out_k, w.out_b⟩ x6)⟩

/-! ### The specification's own wording of the pipelines

The following definitions are written from the specification's sentences
(sections 4.2 and 4.3), to be compared against the source-derived
definitions above. -/

/-- The transformer block's forward pass as the specification words it:
six steps in order — (1) multi-head self-attention with `num_heads` heads of
key dimension `embed_dim`, attending the sequence to itself; (2) dropout at
`rate`; (3) residual add of the attention output to the block input, then
layer normalization with epsilon 1e-6; (4) dense to `ff_dim` with
rectified-linear activation, then dense back to `embed_dim`; (5) dropout at
`rate`; (6) residual add to the post-attention normalized value, then a
second layer normalization with epsilon 1e-6. -/
def specTransformerBlockCall (embed_dim num_heads ff_dim : ℕ) (rate : ℚ)
    (w : TBWeights) (K : NumKernels) (ma mb : ℕ → ℕ → Bool)
    (inputs : Tensor2) (training : Bool) : Tensor2 :=
  let step1 := MultiHeadAttention.call
    ⟨num_heads, embed_dim, w.wq, w.wk, w.wv, w.bq, w.bk, w.bv, w.wo, w.bo⟩
    K inputs inputs
  let step2 := Dropout.callT ⟨rate⟩ training ma step1
  let step3 := (addT inputs step2).map
    (LayerNormalization.call ⟨1/1000000, w.ga, w.ba⟩ K)
  let step4 := step3.map (fun r =>
    DenseLayer.call ⟨embed_dim, Activation.linear, w.w2, w.b2⟩
      (DenseLayer.call ⟨ff_dim, Activation.relu, w.w1, w.b1⟩ r))
  let step5 := Dropout.callT ⟨rate⟩ training mb step4
  (addT step3 step5).map (LayerNormalization.call ⟨1/1000000, w.gb, w.bb⟩ K)

/-- The next-activity model's forward pass as the specification words it:
embed the sequence, one transformer block, global average pooling across the
sequence axis, dropout 0.1, dense of hidden width 64 with rectified-linear
activation, dropout 0.1, and a final dense of width `output_dim` with linear
activation. -/
def specNextActivityForward (mcl vs od ed nh fd : ℕ) (w : ModelWeights)
    (K : NumKernels) (m : DropMasks) (training : Bool)
    (tokens : List ℕ) : Option Vec :=
  match (TokenAndPositionEmbedding.init mcl vs ed w.tok w.pos).call tokens with
  | none => none
  | some e => some (DenseLayer.call ⟨od, Activation.linear, w.out_k, w.out_b⟩
      (Dropout.call1 ⟨1/10⟩ training m.head_b
        (DenseLayer.call ⟨64, Activation.relu, w.hid_k, w.hid_b⟩
          (Dropout.call1 ⟨1/10⟩ training m.head_a
            (globalAveragePooling1D
              ((TransformerBlock.init ed nh fd (1/10) w.tb).call
                K m.tb_a m.tb_b e training))))))

/-- The two time models' forward pass as the specification words it: embed
the sequence, one transformer block, global average pooling; the 3-feature
numeric input through its own dense of width 32 with rectified-linear
activation, concatenated after the pooled representation; then dropout 0.1,
dense of hidden width 128 with rectified-linear activation, dropout 0.1, and
a final dense of width `output_dim` with linear activation. -/
def specTimeForward (mcl vs od ed nh fd : ℕ) (w : ModelWeights)
    (K : NumKernels) (m : DropMasks) (training : Bool)
    (tokens : List ℕ) (times : Vec) : Option Vec :=
  match (TokenAndPositionEmbedding.init mcl vs ed w.tok w.pos).call tokens with
  | none => none
  | some e => some (DenseLayer.call ⟨od, Activation.linear, w.out_k, w.out_b⟩
      (Dropout.call1 ⟨1/10⟩ training m.head_b
        (DenseLayer.call ⟨128, Activation.relu, w.hid_k, w.hid_b⟩
          (Dropout.call1 ⟨1/10⟩ training m.head_a
            (globalAveragePooling1D
              ((TransformerBlock.init ed nh fd (1/10) w.tb).call
                K m.tb_a m.tb_b e training)
              ++ DenseLayer.call ⟨32, Activation.relu, w.time_k, w.time_b⟩ times)))))

/-! ### Concrete parameter choices for evaluation -/

/-- All-zero transformer-block parameters, for concrete evaluations. -/
def zeroTB : TBWeights :=
  ⟨fun _ _ _ => 0, fun _ _ _ => 0, fun _ _ _ => 0, fun _ _ => 0, fun _ _ => 0,
   fun _ _ => 0, fun _ _ => 0, fun _ => 0, fun _ _ => 0, fun _ => 0,
   fun _ _ => 0, fun _ => 0, fun _ => 0, fun _ => 0, fun _ => 0, fun _ => 0⟩

/-- All-zero model parameters, for concrete evaluations. -/
def zeroW : ModelWeights :=
  ⟨fun _ _ => 0, fun _ _ => 0, zeroTB, fun _ _ => 0, fun _ => 0,
   fun _ _ => 0, fun _ => 0, fun _ _ => 0, fun _ => 0⟩

/-- Identity stand-ins for the two numeric kernels, for concrete
evaluations (every theorem quantifies over the kernels). -/
def idK : NumKernels := ⟨fun q => q, fun q => q⟩

/-- Never-dropping masks, for concrete evaluations. -/
def offMasks : DropMasks :=
  ⟨fun _ _ => false, fun _ _ => false, fun _ => false, fun _ => false⟩

/-! ### Shape and evaluation lemmas -/

/-- A dense layer always produces exactly `units` outputs. -/
lemma length_denseCall (d : DenseLayer) (x : Vec) : (d.call x).length = d.units := by
  simp [DenseLayer.call]

/-- An affine projection to `dim` coordinates has length `dim`. -/
lemma length_linProj (w : ℕ → ℕ → ℚ) (b : ℕ → ℚ) (dim : ℕ) (x : Vec) :
    (linProj w b dim x).length = dim := by
  simp [linProj]

/-- Training-mode dropout preserves a row's length. -/
lemma length_dropRow (rate : ℚ) (mask : ℕ → Bool) (x : Vec) :
    (dropRow rate mask x).length = x.length := by
  simp [dropRow]

/-- Layer normalization preserves a row's length. -/
lemma length_lnCall (ln : LayerNormalization) (K : NumKernels) (x : Vec) :
    (ln.call K x).length = x.length := by
  simp [LayerNormalization.call]

/-- An embedding-table row has the table's output width. -/
lemma length_rowE (e : Embedding) (i : ℕ) : (e.row i).length = e.output_dim := by
  simp [Embedding.row]

/-- Mapping a length-preserving row operation preserves a tensor's shape. -/
lemma hasShape_map_len {f : Vec → Vec} (h : ∀ r, (f r).length = r.length)
    {t : Tensor2} {L d : ℕ} (ht : hasShape t L d) : hasShape (t.map f) L d := by
  obtain ⟨h1, h2⟩ := ht
  refine ⟨by simp [h1], ?_⟩
  intro r hr
  rcases List.mem_map.mp hr with ⟨a, ha, rfl⟩
  rw [h a]
  exact h2 a ha

/-- Mapping a row operation of fixed output width `d` gives shape `L × d`. -/
lemma hasShape_map_units {α : Type} {f : α → Vec} {d : ℕ} (h : ∀ a, (f a).length = d)
    {t : List α} {L : ℕ} (hL : t.length = L) : hasShape (t.map f) L d := by
  refine ⟨by simp [hL], ?_⟩
  intro r hr
  rcases List.mem_map.mp hr with ⟨a, _, rfl⟩
  exact h a

/-- Row-wise tensor addition of two `L × d` tensors is `L × d`. -/
lemma hasShape_addT {a b : Tensor2} {L d : ℕ} (ha : hasShape a L d)
    (hb : hasShape b L d) : hasShape (addT a b) L d := by
  induction a generalizing b L with
  | nil =>
    obtain ⟨h1, _⟩ := ha
    obtain ⟨hb1, _⟩ := hb
    cases b with
    | nil => exact ⟨by simpa using h1, by intro r hr; cases hr⟩
    | cons y bs => simp at h1 hb1; omega
  | cons x as ih =>
    obtain ⟨h1, h2⟩ := ha
    cases b with
    | nil => obtain ⟨hb1, _⟩ := hb; simp at h1 hb1; omega
    | cons y bs =>
      obtain ⟨hb1, hb2⟩ := hb
      cases L with
      | zero => simp at h1
      | succ n =>
        have has : hasShape as n d :=
          ⟨by simpa using h1, fun r hr => h2 r (List.mem_cons_of_mem _ hr)⟩
        have hbs : hasShape bs n d :=
          ⟨by simpa using hb1, fun r hr => hb2 r (List.mem_cons_of_mem _ hr)⟩
        have hx : x.length = d := h2 x (List.mem_cons_self _ _)
        have hy : y.length = d := hb2 y (List.mem_cons_self _ _)
        obtain ⟨g1, g2⟩ := ih has hbs
        refine ⟨by simp [addT, g1], ?_⟩
        intro r hr
        rcases List.mem_cons.mp hr with rfl | hr
        · simp [addVec, hx, hy]
        · exact g2 r hr

/-- Indexing a row-wise tensor sum. -/
lemma addT_getElem? {a b : Tensor2} {i : ℕ} {u v : Vec}
    (hu : a[i]? = some u) (hv : b[i]? = some v) :
    (addT a b)[i]? = some (addVec u v) := by
  induction a generalizing b i with
  | nil => simp at hu
  | cons x as ih =>
    cases b with
    | nil => simp at hv
    | cons y bs =>
      cases i with
      | zero =>
        simp only [List.getElem?_cons_zero, Option.some.injEq] at hu hv
        subst hu; subst hv
        show (addVec x y :: addT as bs)[0]? = some (addVec x y)
        simp
      | succ n =>
        simp only [List.getElem?_cons_succ] at hu hv
        show (addVec x y :: addT as bs)[n + 1]? = some (addVec u v)
        simpa using ih hu hv

/-- When every lookup succeeds pointwise, `mapLookup` collects the rows. -/
lemma mapLookup_eq_map {f : ℕ → Option Vec} {g : ℕ → Vec} {l : List ℕ}
    (h : ∀ a ∈ l, f a = some (g a)) : mapLookup f l = some (l.map g) := by
  induction l with
  | nil => rfl
  | cons a as ih =>
    simp only [mapLookup]
    rw [h a (List.mem_cons_self _ _), ih (fun x hx => h x (List.mem_cons_of_mem _ hx))]
    simp

/-- One failing lookup makes `mapLookup` fail. -/
lemma mapLookup_eq_none {f : ℕ → Option Vec} {l : List ℕ} {a : ℕ}
    (ha : a ∈ l) (hfa : f a = none) : mapLookup f l = none := by
  induction l with
  | nil => cases ha
  | cons x xs ih =>
    simp only [mapLookup]
    rcases List.mem_cons.mp ha with rfl | h
    · rw [hfa]
    · rw [ih h]
      cases f x <;> rfl

/-- Evaluation of `TokenAndPositionEmbedding.call` on a valid input: every
token is embedded through the token table, every position `0, …, L-1`
through the position table, and the two are summed row-wise. -/
lemma tpe_call_eq (mcl vs ed : ℕ) (wt wp : ℕ → ℕ → ℚ) (x : List ℕ)
    (hL : x.length ≤ mcl) (hx : ∀ a ∈ x, a < vs) :
    (TokenAndPositionEmbedding.init mcl vs ed wt wp).call x =
      some (addT (x.map (Embedding.row ⟨vs, ed, wt⟩))
        ((List.range x.length).map (Embedding.row ⟨mcl, ed, wp⟩))) := by
  have hpos : mapLookup (Embedding.lookup ⟨mcl, ed, wp⟩) (List.range x.length) =
      some ((List.range x.length).map (Embedding.row ⟨mcl, ed, wp⟩)) := by
    apply mapLookup_eq_map
    intro a ha
    have h : a < mcl := lt_of_lt_of_le (List.mem_range.mp ha) hL
    simp [Embedding.lookup, h]
  have htok : mapLookup (Embedding.lookup ⟨vs, ed, wt⟩) x =
      some (x.map (Embedding.row ⟨vs, ed, wt⟩)) := by
    apply mapLookup_eq_map
    intro a ha
    simp [Embedding.lookup, hx a ha]
  simp only [TokenAndPositionEmbedding.call, TokenAndPositionEmbedding.init]
  rw [hpos, htok]

/-- One attended row keeps the query row's length. -/
lemma length_attendRow (m : MultiHeadAttention) (K : NumKernels)
    (value : Tensor2) (qrow : Vec) :
    (m.attendRow K value qrow).length = qrow.length := by
  unfold MultiHeadAttention.attendRow
  rw [length_linProj]

/-- Multi-head attention preserves the query's shape (the framework projects
back to the query's feature width). -/
lemma hasShape_mha (m : MultiHeadAttention) (K : NumKernels) (v : Tensor2)
    {q : Tensor2} {L d : ℕ} (hq : hasShape q L d) :
    hasShape (m.call K q v) L d := by
  obtain ⟨h1, h2⟩ := hq
  refine ⟨by simp [MultiHeadAttention.call, h1], ?_⟩
  intro r hr
  simp only [MultiHeadAttention.call] at hr
  rcases List.mem_map.mp hr with ⟨qrow, hqr, rfl⟩
  rw [length_attendRow]
  exact h2 qrow hqr

/-- Dropout preserves a tensor's shape in both modes. -/
lemma hasShape_dropT (d : Dropout) (training : Bool) (mask : ℕ → ℕ → Bool)
    {x : Tensor2} {L dd : ℕ} (hx : hasShape x L dd) :
    hasShape (d.callT training mask x) L dd := by
  obtain ⟨h1, h2⟩ := hx
  unfold Dropout.callT
  split
  · refine ⟨by simp [h1], ?_⟩
    intro r hr
    rcases List.mem_map.mp hr with ⟨p, hp, rfl⟩
    rw [length_dropRow]
    have hplen : p < x.length := List.mem_range.mp hp
    have hmem : x.getD p [] ∈ x := by
      rw [List.getD_eq_getElem?_getD, List.getElem?_eq_getElem hplen]
      exact List.getElem_mem hplen
    exact h2 _ hmem
  · exact ⟨h1, h2⟩

/-- A transformer block whose second feed-forward layer has width `ed`
preserves the shape of an `L × ed` input. -/
lemma hasShape_tbcall (b : TransformerBlock) (K : NumKernels)
    (ma mb : ℕ → ℕ → Bool) (training : Bool) {x : Tensor2} {L ed : ℕ}
    (hx : hasShape x L ed) (hu : b.ffn_b.units = ed) :
    hasShape (b.call K ma mb x training) L ed := by
  have h1 : hasShape (b.att.call K x x) L ed := hasShape_mha _ _ _ hx
  have h2 := hasShape_dropT b.dropout_a training ma h1
  have h3 := hasShape_addT hx h2
  have h4 : hasShape ((addT x (b.dropout_a.callT training ma (b.att.call K x x))).map
      (b.layernorm_a.call K)) L ed :=
    hasShape_map_len (fun r => length_lnCall _ _ _) h3
  have h5 : hasShape (((addT x (b.dropout_a.callT training ma (b.att.call K x x))).map
      (b.layernorm_a.call K)).map (fun r => b.ffn_b.call (b.ffn_a.call r))) L ed :=
    hasShape_map_units (fun r => by rw [length_denseCall, hu]) h4.1
  have h6 := hasShape_dropT b.dropout_b training mb h5
  have h7 := hasShape_addT h4 h6
  exact hasShape_map_len (fun r => length_lnCall _ _ _) h7

/-! ### The claims -/

/-- C1: For every input sequence, `TransformerBlock.call` on a block built by
`TransformerBlock.__init__(embed_dim, num_heads, ff_dim, rate)` computes
exactly the specification's six steps in order: multi-head self-attention of
the sequence with itself (`num_heads` heads, key dimension `embed_dim`),
dropout at rate `rate` on the attention output, residual add to the block
input followed by layer normalization with epsilon 1e-6, a feed-forward
sublayer of dense(`ff_dim`, relu) then dense(`embed_dim`), dropout at rate
`rate`, and a residual add to the post-attention normalized value followed
by a second layer normalization with epsilon 1e-6. -/
theorem c1_transformer_block_six_steps (embed_dim num_heads ff_dim : ℕ)
    (rate : ℚ) (w : TBWeights) (K : NumKernels) (ma mb : ℕ → ℕ → Bool)
    (inputs : Tensor2) (training : Bool) :
    (TransformerBlock.init embed_dim num_heads ff_dim rate w).call
        K ma mb inputs training
      = specTransformerBlockCall embed_dim num_heads ff_dim rate w
          K ma mb inputs training := rfl

/-- C2: For every token sequence of length `L ≤ maxlen` whose ids are within
the vocabulary, `TokenAndPositionEmbedding.call` returns a sequence of `L`
vectors of size `embed_dim` whose vector at position `i` is the elementwise
sum of the token table's row for the `i`-th token and the position table's
row for index `i`. -/
theorem c2_token_position_embedding (mcl vs ed : ℕ) (wt wp : ℕ → ℕ → ℚ)
    (x : List ℕ) (hL : x.length ≤ mcl) (hx : ∀ a ∈ x, a < vs) :
    ∃ t, (TokenAndPositionEmbedding.init mcl vs ed wt wp).call x = some t
      ∧ hasShape t x.length ed
      ∧ ∀ (i a : ℕ), x[i]? = some a →
          t[i]? = some (addVec
            ((TokenAndPositionEmbedding.init mcl vs ed wt wp).token_emb.row a)
            ((TokenAndPositionEmbedding.init mcl vs ed wt wp).pos_emb.row i)) := by
  refine ⟨_, tpe_call_eq mcl vs ed wt wp x hL hx, ?_, ?_⟩
  · apply hasShape_addT
    · exact hasShape_map_units (fun a => length_rowE _ a) rfl
    · exact hasShape_map_units (fun a => length_rowE _ a) (List.length_range _)
  · intro i a ha
    have hi : i < x.length := by
      by_contra hcon
      rw [List.getElem?_eq_none (Nat.le_of_not_lt hcon)] at ha
      cases ha
    apply addT_getElem?
    · rw [List.getElem?_map, ha]; rfl
    · rw [List.getElem?_map, List.getElem?_range hi]; rfl

/-- C2 witness: a concrete in-range input evaluates as the theorem states. -/
theorem c2_token_position_embedding_witness :
    ([0, 1].length ≤ 2 ∧ ∀ a ∈ [0, 1], a < 2)
    ∧ ∃ t, (TokenAndPositionEmbedding.init 2 2 1 (fun _ _ => 0)
        (fun _ _ => 0)).call [0, 1] = some t
      ∧ hasShape t [0, 1].length 1
      ∧ ∀ (i a : ℕ), [0, 1][i]? = some a →
          t[i]? = some (addVec
            ((TokenAndPositionEmbedding.init 2 2 1 (fun _ _ => 0)
              (fun _ _ => 0)).token_emb.row a)
            ((TokenAndPositionEmbedding.init 2 2 1 (fun _ _ => 0)
              (fun _ _ => 0)).pos_emb.row i)) :=
  ⟨⟨by decide, by decide⟩,
   c2_token_position_embedding 2 2 1 (fun _ _ => 0) (fun _ _ => 0) [0, 1]
     (by decide) (by decide)⟩

/-- C3: All three builders wire the specification's head pipeline — embed,
one transformer block, global average pooling, dropout 0.1, dense-relu
hidden layer, dropout 0.1, final dense(`output_dim`, linear) — with hidden
width 64 for the next-activity model, and for the two time models the
3-feature numeric input through its own dense(32, relu) concatenated with
the pooled representation and hidden width 128. -/
theorem c3_builders_wiring (mcl vs od ed nh fd : ℕ) (w : ModelWeights)
    (K : NumKernels) (m : DropMasks) (training : Bool) (tokens : List ℕ)
    (times : Vec) :
    (get_next_activity_model mcl vs od ed nh fd w).forward K m training tokens times
      = specNextActivityForward mcl vs od ed nh fd w K m training tokens
  ∧ (get_next_time_model mcl vs od ed nh fd w).forward K m training tokens times
      = specTimeForward mcl vs od ed nh fd w K m training tokens times
  ∧ (get_remaining_time_model mcl vs od ed nh fd w).forward K m training tokens times
      = specTimeForward mcl vs od ed nh fd w K m training tokens times :=
  ⟨rfl, rfl, rfl⟩

/-- C4 counterexample: `get_next_time_model` called with `output_dim = 2`
returns a model whose final output width is 2, not 1 — the claim's "final
output width 1 for every argument tuple" is false, since `output_dim` is a
parameter (defaulting to 1) that the final dense layer uses directly. -/
theorem c4_time_width_counterexample :
    (((get_next_time_model 1 1 2 1 1 1 zeroW).forward idK offMasks false [0]
      [0, 0, 0]).map List.length) = some 2
    ∧ (((get_next_time_model 1 1 2 1 1 1 zeroW).forward idK offMasks false [0]
      [0, 0, 0]).map List.length) ≠ some 1 := by
  constructor <;> decide

/-- C4 (amended): for every argument tuple and valid input, the model built
by `get_next_activity_model` has final output width `output_dim`, and the
models built by `get_next_time_model` and `get_remaining_time_model` have
final output width equal to their supplied `output_dim` parameter, which
defaults to 1. -/
theorem c4_output_width (mcl vs od ed nh fd : ℕ) (w : ModelWeights)
    (K : NumKernels) (m : DropMasks) (training : Bool) (tokens : List ℕ)
    (times : Vec) (hL : tokens.length ≤ mcl) (hx : ∀ a ∈ tokens, a < vs) :
    (∃ v, (get_next_activity_model mcl vs od ed nh fd w).forward
        K m training tokens times = some v ∧ v.length = od)
  ∧ (∃ v, (get_next_time_model mcl vs od ed nh fd w).forward
        K m training tokens times = some v ∧ v.length = od)
  ∧ (∃ v, (get_remaining_time_model mcl vs od ed nh fd w).forward
        K m training tokens times = some v ∧ v.length = od) := by
  have hc := tpe_call_eq mcl vs ed w.tok w.pos tokens hL hx
  refine ⟨?_, ?_, ?_⟩
  · simp only [get_next_activity_model]
    rw [hc]
    exact ⟨_, rfl, length_denseCall _ _⟩
  · simp only [get_next_time_model]
    rw [hc]
    exact ⟨_, rfl, length_denseCall _ _⟩
  · simp only [get_remaining_time_model]
    rw [hc]
    exact ⟨_, rfl, length_denseCall _ _⟩

/-- C4 witness: with `output_dim = 3`, all three built models produce
width-3 outputs on a concrete valid input. -/
theorem c4_output_width_witness :
    (([0] : List ℕ).length ≤ 1 ∧ ∀ a ∈ ([0] : List ℕ), a < 1)
    ∧ ((∃ v, (get_next_activity_model 1 1 3 1 1 1 zeroW).forward
          idK offMasks false [0] [] = some v ∧ v.length = 3)
      ∧ (∃ v, (get_next_time_model 1 1 3 1 1 1 zeroW).forward
          idK offMasks false [0] [] = some v ∧ v.length = 3)
      ∧ (∃ v, (get_remaining_time_model 1 1 3 1 1 1 zeroW).forward
          idK offMasks false [0] [] = some v ∧ v.length = 3)) :=
  ⟨⟨by decide, by decide⟩,
   c4_output_width 1 1 3 1 1 1 zeroW idK offMasks false [0] []
     (by decide) (by decide)⟩

/-- C5: Each builder, given `(max_case_length, vocab_size, output_dim)` and
the default hyperparameters `embed_dim = 36, num_heads = 4, ff_dim = 64`,
returns a model whose sequence input has shape `max_case_length`, whose
auxiliary numeric input is absent for the next-activity model and has fixed
width 3 for the two time models, and whose name is the respective fixed
string. -/
theorem c5_builder_interface (mcl vs od : ℕ) (w : ModelWeights) :
    ((get_next_activity_model mcl vs od 36 4 64 w).name
        = "next_activity_transformer"
      ∧ (get_next_activity_model mcl vs od 36 4 64 w).seq_input_len = mcl
      ∧ (get_next_activity_model mcl vs od 36 4 64 w).time_input_width = none)
  ∧ ((get_next_time_model mcl vs od 36 4 64 w).name = "next_time_transformer"
      ∧ (get_next_time_model mcl vs od 36 4 64 w).seq_input_len = mcl
      ∧ (get_next_time_model mcl vs od 36 4 64 w).time_input_width = some 3)
  ∧ ((get_remaining_time_model mcl vs od 36 4 64 w).name
        = "remaining_time_transformer"
      ∧ (get_remaining_time_model mcl vs od 36 4 64 w).seq_input_len = mcl
      ∧ (get_remaining_time_model mcl vs od 36 4 64 w).time_input_width
        = some 3) :=
  ⟨⟨rfl, rfl, rfl⟩, ⟨rfl, rfl, rfl⟩, ⟨rfl, rfl, rfl⟩⟩

/-- C6: For every valid input sequence of `L ≤ maxlen` vectors of size
`embed_dim`, `TransformerBlock.call` preserves shape: its output is again a
sequence of `L` vectors of size `embed_dim`. -/
theorem c6_block_shape_preserved (ed nh fd maxlen L : ℕ) (rate : ℚ)
    (w : TBWeights) (K : NumKernels) (ma mb : ℕ → ℕ → Bool) (training : Bool)
    (inputs : Tensor2) (_hmax : L ≤ maxlen) (hs : hasShape inputs L ed) :
    hasShape ((TransformerBlock.init ed nh fd rate w).call
      K ma mb inputs training) L ed :=
  hasShape_tbcall _ K ma mb training hs rfl

/-- C6 witness: a concrete `1 × 1` input keeps its shape through a concrete
block. -/
theorem c6_block_shape_preserved_witness :
    (1 ≤ 1 ∧ hasShape [[(0 : ℚ)]] 1 1)
    ∧ hasShape ((TransformerBlock.init 1 1 1 (1/10) zeroTB).call idK
      (fun _ _ => false) (fun _ _ => false) [[(0 : ℚ)]] false) 1 1 :=
  ⟨⟨by decide, by decide⟩,
   c6_block_shape_preserved 1 1 1 1 1 (1/10) zeroTB idK
     (fun _ _ => false) (fun _ _ => false) false [[(0 : ℚ)]]
     (by decide) (by decide)⟩

/-- C7: Outside training mode every dropout is inert — it returns its input
unchanged — so a forward pass of any of the three built models at inference
does not depend on the dropout masks: two passes on the same input agree. -/
theorem c7_inference_deterministic (d : Dropout) (mask1 : ℕ → Bool)
    (maskT : ℕ → ℕ → Bool) (v : Vec) (x : Tensor2)
    (mcl vs od ed nh fd : ℕ) (w : ModelWeights) (K : NumKernels)
    (m1 m2 : DropMasks) (tokens : List ℕ) (times : Vec) :
    Dropout.call1 d false mask1 v = v
  ∧ Dropout.callT d false maskT x = x
  ∧ (get_next_activity_model mcl vs od ed nh fd w).forward K m1 false tokens times
      = (get_next_activity_model mcl vs od ed nh fd w).forward K m2 false tokens times
  ∧ (get_next_time_model mcl vs od ed nh fd w).forward K m1 false tokens times
      = (get_next_time_model mcl vs od ed nh fd w).forward K m2 false tokens times
  ∧ (get_remaining_time_model mcl vs od ed nh fd w).forward K m1 false tokens times
      = (get_remaining_time_model mcl vs od ed nh fd w).forward K m2 false tokens times :=
  ⟨rfl, rfl, rfl, rfl, rfl⟩

/-- C8: With `embed_dim = 36, num_heads = 4, ff_dim = 64,
max_case_length = 10, vocab_size = 50`, the model built by
`get_next_activity_model` with `output_dim = 5` produces a 5-length output
vector for every valid length-10 input sequence. -/
theorem c8_concrete_next_activity (w : ModelWeights) (K : NumKernels)
    (m : DropMasks) (training : Bool) (tokens : List ℕ) (times : Vec)
    (hlen : tokens.length = 10) (hv : ∀ a ∈ tokens, a < 50) :
    ∃ v, (get_next_activity_model 10 50 5 36 4 64 w).forward
      K m training tokens times = some v ∧ v.length = 5 := by
  have hc := tpe_call_eq 10 50 36 w.tok w.pos tokens (by omega) hv
  simp only [get_next_activity_model]
  rw [hc]
  exact ⟨_, rfl, length_denseCall _ _⟩

/-- C8 witness: the all-zero length-10 sequence is valid and yields a
5-length output. -/
theorem c8_concrete_next_activity_witness :
    ((List.replicate 10 0).length = 10 ∧ ∀ a ∈ List.replicate 10 0, a < 50)
    ∧ ∃ v, (get_next_activity_model 10 50 5 36 4 64 zeroW).forward
        idK offMasks false (List.replicate 10 0) [] = some v ∧ v.length = 5 :=
  ⟨⟨by decide, by decide⟩,
   c8_concrete_next_activity zeroW idK offMasks false (List.replicate 10 0) []
     (by decide) (by decide)⟩

/-- C9: For identical argument tuples, `get_next_time_model` and
`get_remaining_time_model` build models computing the same function — the
forward passes are equal as functions, the declared inputs agree, and the
two builders differ only in the returned model's name string. -/
theorem c9_time_models_equal (mcl vs od ed nh fd : ℕ) (w : ModelWeights) :
    (get_next_time_model mcl vs od ed nh fd w).forward
      = (get_remaining_time_model mcl vs od ed nh fd w).forward
  ∧ (get_next_time_model mcl vs od ed nh fd w).seq_input_len
      = (get_remaining_time_model mcl vs od ed nh fd w).seq_input_len
  ∧ (get_next_time_model mcl vs od ed nh fd w).time_input_width
      = (get_remaining_time_model mcl vs od ed nh fd w).time_input_width
  ∧ (get_next_time_model mcl vs od ed nh fd w).name = "next_time_transformer"
  ∧ (get_remaining_time_model mcl vs od ed nh fd w).name
      = "remaining_time_transformer" :=
  ⟨rfl, rfl, rfl, rfl, rfl⟩

/-- C10: `TokenAndPositionEmbedding.call` derives its position indices from
the runtime input length: an input of length `L ≤ maxlen` with all token ids
below `vocab_size` makes both table lookups succeed, while for any input
longer than `maxlen` the position lookup at index `maxlen` runs past the
size-`maxlen` position table — its error branch is reachable — and the call
fails. -/
theorem c10_position_table_bounds (mcl vs ed : ℕ) (wt wp : ℕ → ℕ → ℚ)
    (x y : List ℕ) (hLx : x.length ≤ mcl) (hx : ∀ a ∈ x, a < vs)
    (hLy : mcl < y.length) :
    ((TokenAndPositionEmbedding.init mcl vs ed wt wp).call x).isSome = true
  ∧ (TokenAndPositionEmbedding.init mcl vs ed wt wp).pos_emb.lookup mcl = none
  ∧ (TokenAndPositionEmbedding.init mcl vs ed wt wp).call y = none := by
  refine ⟨?_, ?_, ?_⟩
  · rw [tpe_call_eq mcl vs ed wt wp x hLx hx]; rfl
  · simp [TokenAndPositionEmbedding.init, Embedding.lookup]
  · have hm : mapLookup (Embedding.lookup ⟨mcl, ed, wp⟩)
        (List.range y.length) = none := by
      apply mapLookup_eq_none (List.mem_range.mpr hLy)
      simp [Embedding.lookup]
    simp only [TokenAndPositionEmbedding.call, TokenAndPositionEmbedding.init]
    rw [hm]

/-- C10 witness: with `maxlen = 1`, the length-1 input `[0]` succeeds while
the length-2 input `[0, 0]` hits the position-table error. -/
theorem c10_position_table_bounds_witness :
    (([0] : List ℕ).length ≤ 1 ∧ (∀ a ∈ ([0] : List ℕ), a < 1)
        ∧ 1 < ([0, 0] : List ℕ).length)
    ∧ (((TokenAndPositionEmbedding.init 1 1 1 (fun _ _ => 0)
          (fun _ _ => 0)).call [0]).isSome = true
      ∧ (TokenAndPositionEmbedding.init 1 1 1 (fun _ _ => 0)
          (fun _ _ => 0)).pos_emb.lookup 1 = none
      ∧ (TokenAndPositionEmbedding.init 1 1 1 (fun _ _ => 0)
          (fun _ _ => 0)).call [0, 0] = none) :=
  ⟨⟨by decide, by decide, by decide⟩,
   c10_position_table_bounds 1 1 1 (fun _ _ => 0) (fun _ _ => 0) [0] [0, 0]
     (by decide) (by decide) (by decide)⟩
